import Mathlib

set_option maxRecDepth 8000

/-!
Shallow embedding of the search-and-rerank pipeline of `src/search_service.py`
(oci-log-lens).

Modelling conventions:
* Python dictionaries holding the fixed fields that the code reads are
  structures; a field read with `.get(k)` has type `Option τ` (with `none` for
  "key absent or JSON null").
* The re-rank annotation fields of a candidate use `Option (Option τ)`:
  the outer `Option` records whether the dictionary key is present at all
  (it is absent on candidates freshly produced by the format step and is set
  by `candidate.update({...})`), the inner `Option` is the Python value,
  which may itself be `None`.
* Python strings are sequences of code points, i.e. the `data : List Char`
  of a Lean `String`; slicing and `len` act on that list.
* Exact rational arithmetic (`ℚ`) replaces float arithmetic; `round(x, 2)`
  is round-half-to-even carried out exactly.
* The external collaborators (normalizer, embedder, vector store, generative
  client) are parameters: each is a function returning `Except String _`,
  where `.error msg` models the call raising an exception with message `msg`.
* The `jira_to_candidate` dictionary maps each key to a *reference* to a
  candidate record, modelled as an index into the list of candidate records;
  that list is threaded through the merge loop as explicit state so that
  mutation (or its absence) is observable.
-/

/-- A raw log: a list of key/value records, as accepted by `search_log`. -/
abbrev RawLog := List (List (String × String))

/-- The normalized log produced by the external `normalize_log` call. -/
abbrev NormalizedLog := List (String × String)

/-- The embedding vector produced by the external `generate_embedding` call. -/
abbrev EmbeddingVec := List ℚ

/-- Round-half-to-even of a rational to the nearest integer, the tie-breaking
rule used by Python's builtin `round`. -/
def roundHalfEven (x : ℚ) : ℤ :=
  if x - ⌊x⌋ < 1/2 then ⌊x⌋
  else if 1/2 < x - ⌊x⌋ then ⌊x⌋ + 1
  else if Even ⌊x⌋ then ⌊x⌋ else ⌊x⌋ + 1

/-- Python `round(x, 2)` over exact rationals. -/
def pyRound2 (x : ℚ) : ℚ := (roundHalfEven (x * 100) : ℚ) / 100

/-- Python string slice `s[:n]`: the first `n` code points of `s`. -/
def pyStrTake (s : String) (n : Nat) : String := ⟨s.data.take n⟩

/-- Python `len(s)`: the number of code points of `s`. -/
def pyStrLen (s : String) : Nat := s.data.length

/-- Python `s.split(sep)` for a one-character separator, on code-point lists:
empty pieces are kept, and splitting the empty string gives one empty piece. -/
def splitOnChar (sep : Char) : List Char → List (List Char)
  | [] => [[]]
  | c :: cs =>
    let r := splitOnChar sep cs
    if c = sep then [] :: r
    else
      match r with
      | [] => [[c]]
      | h :: t => (c :: h) :: t

/-- `full_url.split("/")[-1]`: the last `/`-separated segment of a string. -/
def shortId (s : String) : String := ⟨(splitOnChar '/' s.data).getLastD []⟩

/-- One raw row returned by the external `search_similar_logs` vector query.
The cosine distance is stored under the column name `similarity_score`,
exactly as the source reads it (`result.get("similarity_score", 1.0)`). -/
structure RawResult where
  jira_id : Option String
  similarity_score : Option ℚ
  flow_code : Option String
  trigger_type : Option String
  error_code : Option String
  error_summary : Option String
  normalized_json : Option String
deriving DecidableEq

/-- A formatted match dictionary, as built in step 4 of `search_log` and
consumed / annotated by `rerank_with_llm`.  The four re-rank fields use
`Option (Option _)`: outer layer = "key present in the dict", inner layer =
the Python value (which `result.get(...)` may have produced as `None`). -/
structure Candidate where
  jira_id : Option String
  similarity_score : ℚ
  flow_code : Option String
  trigger_type : Option String
  error_code : Option String
  error_summary : String
  normalized_json : String
  rank : Option (Option Int) := none
  classification : Option (Option String) := none
  confidence : Option (Option ℚ) := none
  reasoning : Option (Option String) := none
deriving DecidableEq

/-- One entry of the parsed JSON list `response_data["results"]` produced by
the generative re-rank call; every field is read with `.get`, hence optional. -/
structure RerankEntry where
  jira_id : Option String
  rank : Option Int
  classification : Option String
  confidence : Option ℚ
  reasoning : Option String
deriving DecidableEq

/-- Step 4 of `search_log`: turn one raw vector-search row into a match
dictionary.  Mirrors:
`distance = float(result.get("similarity_score", 1.0))`,
`similarity_score = round((1 - distance) * 100, 2)`,
`error_summary_short = error_summary[:150] + ("..." if len(error_summary) > 150 else "")`
(where `error_summary = result.get("error_summary") or ""`; for string
values `x or ""` coincides with "default to the empty string"). -/
def formatResult (result : RawResult) : Candidate :=
  let distance : ℚ := (result.similarity_score).getD 1
  let similarity_score : ℚ := pyRound2 ((1 - distance) * 100)
  let error_summary : String := (result.error_summary).getD ""
  let error_summary_short : String :=
    pyStrTake error_summary 150 ++ (if 150 < pyStrLen error_summary then "..." else "")
  { jira_id := result.jira_id
    similarity_score := similarity_score
    flow_code := result.flow_code
    trigger_type := result.trigger_type
    error_code := result.error_code
    error_summary := error_summary_short
    normalized_json := (result.normalized_json).getD "\x7b\x7d" }

/-- The `jira_to_candidate` dictionary built by `rerank_with_llm`, as an
insertion-ordered association list from keys to candidate indices
(references into the candidate list).  For the candidate at index `i`:
the key `c.get("jira_id")` is always inserted (Python permits a `None`
key), and when that value is truthy (a non-empty string) the short id is
inserted as well. -/
def buildLookupAux (i : Nat) : List Candidate → List (Option String × Nat)
  | [] => []
  | c :: rest =>
    (match c.jira_id with
      | some url =>
        if url = "" then [(some url, i)]
        else [(some url, i), (some (shortId url), i)]
      | none => [(none, i)]) ++ buildLookupAux (i + 1) rest

/-- The `jira_to_candidate` dictionary for a candidate list. -/
def buildLookup (candidates : List Candidate) : List (Option String × Nat) :=
  buildLookupAux 0 candidates

/-- Dictionary lookup: the most recent insertion for a key wins, matching
Python dict overwrite semantics. -/
def dictGetIdx? (d : List (Option String × Nat)) (k : Option String) : Option Nat :=
  (d.reverse.find? (fun p => p.1 == k)).map Prod.snd

/-- `candidate.update({"rank": ..., "classification": ..., "confidence": ...,
"reasoning": ...})` applied to a fresh `.copy()` of `c`: the four keys are
(re)inserted with the values taken from the re-rank entry. -/
def annotate (c : Candidate) (e : RerankEntry) : Candidate :=
  { c with rank := some e.rank
           classification := some e.classification
           confidence := some e.confidence
           reasoning := some e.reasoning }

/-- One iteration of the merge loop of `rerank_with_llm`
(`for result in reranked_results:`), with the candidate store threaded as
explicit state in `acc.1` and `enhanced_results` accumulated in `acc.2`.
A matched entry reads the referenced candidate out of the store, copies it,
updates the copy and appends it to `enhanced_results`; because of the
`.copy()` the store is not written.  An unmatched entry only logs a
warning. -/
def mergeStep (lookup : List (Option String × Nat))
    (acc : List Candidate × List Candidate) (e : RerankEntry) :
    List Candidate × List Candidate :=
  match dictGetIdx? lookup e.jira_id with
  | some i =>
    match acc.1.get? i with
    | some c => (acc.1, acc.2 ++ [annotate c e])
    | none => (acc.1, acc.2)
  | none => (acc.1, acc.2)

/-- The merge loop, folding `mergeStep` from the initial state
(candidate store, empty `enhanced_results`). -/
def mergeLoop (store : List Candidate) (lookup : List (Option String × Nat))
    (reranked_results : List RerankEntry) : List Candidate × List Candidate :=
  reranked_results.foldl (mergeStep lookup) (store, [])

/-- The candidate (if any) that a re-rank entry resolves to, by either key
form, against the original candidate list. -/
def matchedCandidate? (candidates : List Candidate) (e : RerankEntry) : Option Candidate :=
  (dictGetIdx? (buildLookup candidates) e.jira_id).bind candidates.get?

/-- The sort key `x.get("rank", 999)` as a Python value: `999` when the key
is absent, otherwise the stored value, which may be Python `None`
(modelled as the inner `none`). -/
def rankKey (c : Candidate) : Option Int :=
  match c.rank with
  | none => some 999
  | some v => v

/-- The integer under a comparable sort key (only meaningful when every key
is an integer). -/
def rankVal (c : Candidate) : Int := (rankKey c).getD 999

/-- Comparison of two comparable sort keys. -/
def rankLE (a b : Candidate) : Prop := rankVal a ≤ rankVal b

instance : DecidableRel rankLE := fun a b => Int.decLe (rankVal a) (rankVal b)

instance : IsTotal Candidate rankLE := ⟨fun a b => Int.le_total (rankVal a) (rankVal b)⟩

instance : IsTrans Candidate rankLE := ⟨fun _ _ _ h₁ h₂ => le_trans h₁ h₂⟩

/-- `enhanced_results.sort(key=lambda x: x.get("rank", 999))`.  CPython's
sort is stable and raises `TypeError` as soon as it compares `None` with an
integer; for two or more elements every element's key takes part in at least
one comparison, so the sort succeeds exactly when the list has at most one
element or every key is an integer, and then produces the stable ascending
order. -/
def sortByRank (l : List Candidate) : Except String (List Candidate) :=
  if l.length ≤ 1 then .ok l
  else if l.all (fun c => (rankKey c).isSome) then
    .ok (l.insertionSort rankLE)
  else .error "TypeError: < not supported between NoneType and int"

/-- Result of `rerank_with_llm`, with the post-call contents of the caller's
candidate records (`store`) made explicit next to the returned list. -/
structure RerankOutcome where
  store : List Candidate
  output : List Candidate
deriving DecidableEq

/-- `rerank_with_llm(normalized_log, candidates)`.  The generative call, the
`response.text` handling, `json.loads` and `response_data.get("results", [])`
are modelled together as the external function `llm`; `.error msg` models any
exception raised up to that point.  Everything runs inside
`try: ... except Exception: return candidates`. -/
def rerank_with_llm
    (llm : NormalizedLog → List Candidate → Except String (List RerankEntry))
    (normalized_log : NormalizedLog) (candidates : List Candidate) : RerankOutcome :=
  match llm normalized_log candidates with
  | .error _ => ⟨candidates, candidates⟩
  | .ok reranked_results =>
    let st := mergeLoop candidates (buildLookup candidates) reranked_results
    match sortByRank st.2 with
    | .ok sorted_results => ⟨st.1, sorted_results⟩
    | .error _ => ⟨st.1, candidates⟩

/-- The external collaborators of the pipeline.  Each call either returns a
value or raises (an `Except.error` carrying the exception message). -/
structure PipelineEnv where
  normalize_log : RawLog → Except String NormalizedLog
  generate_embedding : NormalizedLog → Except String EmbeddingVec
  search_similar_logs : EmbeddingVec → Int → Except String (List RawResult)
  llm_rerank : NormalizedLog → List Candidate → Except String (List RerankEntry)

/-- Python list slice `l[:n]` for an arbitrary integer `n`: a non-negative
`n` keeps the first `n` elements, a negative `n` drops the last `|n|`. -/
def pySlice {α : Type} (l : List α) (n : Int) : List α :=
  if 0 ≤ n then l.take n.toNat else l.take (l.length - n.natAbs)

/-- The body of the `try:` block of `search_log`: the five pipeline stages in
sequence.  `rerank_with_llm` cannot raise; its returned list is truncated to
`top_n` with a Python slice. -/
def search_log_body (env : PipelineEnv) (raw_log : RawLog) (top_n : Int) :
    Except String (List Candidate) :=
  match env.normalize_log raw_log with
  | .error e => .error e
  | .ok normalized_log =>
    match env.generate_embedding normalized_log with
    | .error e => .error e
    | .ok embedding =>
      match env.search_similar_logs embedding top_n with
      | .error e => .error e
      | .ok results =>
        let matchList := results.map formatResult
        let enhanced_matches :=
          (rerank_with_llm env.llm_rerank normalized_log matchList).output
        .ok (pySlice enhanced_matches top_n)

instance exceptDecEq {ε α : Type _} [DecidableEq ε] [DecidableEq α] :
    DecidableEq (Except ε α) := fun x y =>
  match x, y with
  | .ok a, .ok b =>
    if h : a = b then isTrue (by rw [h])
    else isFalse (by intro hc; cases hc; exact h rfl)
  | .error a, .error b =>
    if h : a = b then isTrue (by rw [h])
    else isFalse (by intro hc; cases hc; exact h rfl)
  | .ok _, .error _ => isFalse (by intro hc; cases hc)
  | .error _, .ok _ => isFalse (by intro hc; cases hc)

/-- The `HTTPException(status_code=..., detail=...)` raised by `search_log`. -/
structure HTTPException where
  status_code : Nat
  detail : String
deriving DecidableEq

/-- `search_log(raw_log, top_n)`: the `try:` body, with any exception caught
once at the boundary and re-raised as a 500 `HTTPException` whose detail wraps
the original message. -/
def search_log (env : PipelineEnv) (raw_log : RawLog) (top_n : Int) :
    Except HTTPException (List Candidate) :=
  match search_log_body env raw_log top_n with
  | .ok v => .ok v
  | .error e => .error ⟨500, "Search failed: " ++ e⟩

/-- The `enhanced_results` list as it stands after the merge loop of
`rerank_with_llm`, before sorting. -/
def enhancedResults (candidates : List Candidate) (rr : List RerankEntry) : List Candidate :=
  (mergeLoop candidates (buildLookup candidates) rr).2

/-! ### Concrete fixtures for witnesses and counterexamples -/

/-- A formatted candidate whose ticket URL has a short id `OLL-1234`. -/
def candA : Candidate :=
  { jira_id := some "https://x/OLL-1234", similarity_score := 88, flow_code := some "F1"
    trigger_type := none, error_code := some "E42", error_summary := "payment flow failed"
    normalized_json := "" }

/-- A second formatted candidate with a different ticket URL. -/
def candB : Candidate :=
  { jira_id := some "https://x/OLL-77", similarity_score := 60, flow_code := none
    trigger_type := none, error_code := none, error_summary := "timeout"
    normalized_json := "" }

/-- A re-rank entry referencing `candA` by its full URL, with rank 2. -/
def entryFullId : RerankEntry :=
  ⟨some "https://x/OLL-1234", some 2, some "related", none, some "same flow"⟩

/-- A re-rank entry referencing `candA` by its short id, with rank 1. -/
def entryShortId : RerankEntry :=
  ⟨some "OLL-1234", some 1, some "duplicate", some 1, some "same error"⟩

/-- A re-rank entry referencing `candA` by its full URL with no rank value. -/
def entryNoRankA : RerankEntry :=
  ⟨some "https://x/OLL-1234", none, some "duplicate", none, none⟩

/-- A re-rank entry referencing `candB` by its full URL, with rank 1. -/
def entryRank1B : RerankEntry :=
  ⟨some "https://x/OLL-77", some 1, some "duplicate", none, none⟩

/-- A raw vector-search row with cosine distance 2 (antipodal vectors). -/
def rawDistTwo : RawResult :=
  ⟨some "https://x/OLL-9", some 2, none, none, none, some "boom", none⟩

/-- A raw vector-search row with cosine distance 0.12. -/
def rawDist012 : RawResult :=
  ⟨some "https://x/OLL-5", some (12/100), none, none, none, some "oops", none⟩

/-- A raw vector-search row with a 200-character error summary. -/
def rawLongSummary : RawResult :=
  ⟨some "https://x/OLL-6", some 0, none, none, none,
   some ⟨List.replicate 200 'a'⟩, none⟩

/-- An environment whose normalizer raises with message `boom`. -/
def envNormFail : PipelineEnv :=
  { normalize_log := fun _ => .error "boom"
    generate_embedding := fun _ => .ok []
    search_similar_logs := fun _ _ => .ok []
    llm_rerank := fun _ _ => .error "unused" }

/-- An environment whose vector search returns one row with distance 2 and
whose generative re-rank call raises. -/
def envDistTwo : PipelineEnv :=
  { normalize_log := fun _ => .ok []
    generate_embedding := fun _ => .ok []
    search_similar_logs := fun _ _ => .ok [rawDistTwo]
    llm_rerank := fun _ _ => .error "rerank down" }

/-- An environment whose vector search returns one row with distance 0.12 and
whose generative re-rank call raises. -/
def envDist012 : PipelineEnv :=
  { normalize_log := fun _ => .ok []
    generate_embedding := fun _ => .ok []
    search_similar_logs := fun _ _ => .ok [rawDist012]
    llm_rerank := fun _ _ => .error "rerank down" }

/-- Three raw vector-search rows with distance 0. -/
def rawRow1 : RawResult := ⟨some "https://x/OLL-1", some 0, none, none, none, some "a", none⟩

def rawRow2 : RawResult := ⟨some "https://x/OLL-2", some 0, none, none, none, some "b", none⟩

def rawRow3 : RawResult := ⟨some "https://x/OLL-3", some 0, none, none, none, some "c", none⟩

/-- An environment whose vector search returns three rows (distances 0) and
whose generative re-rank call raises. -/
def envThreeRows : PipelineEnv :=
  { normalize_log := fun _ => .ok []
    generate_embedding := fun _ => .ok []
    search_similar_logs := fun _ _ => .ok [rawRow1, rawRow2, rawRow3]
    llm_rerank := fun _ _ => .error "rerank down" }

/-! ### Helper lemmas -/

theorem mergeStep_fst (lk : List (Option String × Nat))
    (acc : List Candidate × List Candidate) (e : RerankEntry) :
    (mergeStep lk acc e).1 = acc.1 := by
  unfold mergeStep
  split
  · split <;> rfl
  · rfl

theorem foldl_mergeStep_fst (lk : List (Option String × Nat)) :
    ∀ (rr : List RerankEntry) (acc : List Candidate × List Candidate),
      (rr.foldl (mergeStep lk) acc).1 = acc.1
  | [], _ => rfl
  | e :: rest, acc => by
    rw [List.foldl_cons, foldl_mergeStep_fst lk rest, mergeStep_fst]

theorem mergeLoop_fst (store : List Candidate) (lk : List (Option String × Nat))
    (rr : List RerankEntry) : (mergeLoop store lk rr).1 = store :=
  foldl_mergeStep_fst lk rr (store, [])

theorem foldl_mergeStep_snd (lk : List (Option String × Nat)) :
    ∀ (rr : List RerankEntry) (acc : List Candidate × List Candidate),
      (rr.foldl (mergeStep lk) acc).2
        = acc.2 ++ rr.filterMap
            (fun e => ((dictGetIdx? lk e.jira_id).bind acc.1.get?).map
              (fun c => annotate c e))
  | [], acc => by simp
  | e :: rest, acc => by
    rw [List.foldl_cons, foldl_mergeStep_snd lk rest, mergeStep_fst,
      List.filterMap_cons]
    unfold mergeStep
    rcases h : dictGetIdx? lk e.jira_id with _ | i
    · simp
    · rcases h2 : acc.1.get? i with _ | c <;>
        rw [List.get?_eq_getElem?] at h2 <;> simp [h2]

theorem mergeLoop_snd (store : List Candidate) (lk : List (Option String × Nat))
    (rr : List RerankEntry) :
    (mergeLoop store lk rr).2
      = rr.filterMap
          (fun e => ((dictGetIdx? lk e.jira_id).bind store.get?).map
            (fun c => annotate c e)) := by
  rw [mergeLoop, foldl_mergeStep_snd]
  simp

theorem enhancedResults_eq (cs : List Candidate) (rr : List RerankEntry) :
    enhancedResults cs rr
      = rr.filterMap (fun e => (matchedCandidate? cs e).map (fun c => annotate c e)) := by
  rw [enhancedResults, mergeLoop_snd]
  rfl

theorem buildLookupAux_snd_lt :
    ∀ (cs : List Candidate) (i : Nat) (p : Option String × Nat),
      p ∈ buildLookupAux i cs → p.2 < i + cs.length
  | [], _, p => by intro hp; simp [buildLookupAux] at hp
  | c :: rest, i, p => by
    intro hp
    unfold buildLookupAux at hp
    rw [List.mem_append] at hp
    have hlen : (c :: rest).length = rest.length + 1 := rfl
    rcases hp with hp | hp
    · have hi : p.2 = i := by
        rcases hc : c.jira_id with _ | url <;> rw [hc] at hp
        · simp at hp; rw [hp]
        · by_cases hu : url = "" <;> simp [hu] at hp
          · rw [hp]
          · rcases hp with hp | hp <;> rw [hp]
      rw [hlen, hi]; omega
    · have := buildLookupAux_snd_lt rest (i + 1) p hp
      rw [hlen]; omega

theorem dictGetIdx?_buildLookup_lt (cs : List Candidate) (k : Option String) (i : Nat)
    (h : dictGetIdx? (buildLookup cs) k = some i) : i < cs.length := by
  unfold dictGetIdx? at h
  rcases hf : (buildLookup cs).reverse.find? (fun p => p.1 == k) with _ | p
  · rw [hf] at h; cases h
  · rw [hf] at h
    simp only [Option.map_some'] at h
    injection h with h
    have hp : p ∈ (buildLookup cs).reverse := List.mem_of_find?_eq_some hf
    rw [List.mem_reverse] at hp
    unfold buildLookup at hp
    have hlt := buildLookupAux_snd_lt cs 0 p hp
    omega

theorem length_filterMap_eq_countP {α β : Type _} (f : α → Option β) :
    ∀ l : List α, (l.filterMap f).length = l.countP fun a => (f a).isSome
  | [] => rfl
  | a :: l => by
    rw [List.filterMap_cons, List.countP_cons]
    rcases h : f a with _ | b <;>
      simp [h, length_filterMap_eq_countP f l]

theorem sortByRank_ok_perm {l l' : List Candidate} (h : sortByRank l = .ok l') :
    l'.Perm l := by
  unfold sortByRank at h
  split at h
  · injection h with h; subst h; exact List.Perm.refl l
  · split at h
    · injection h with h; subst h; exact List.perm_insertionSort rankLE l
    · cases h

theorem sortByRank_ok_sorted {l l' : List Candidate} (h : sortByRank l = .ok l') :
    List.Sorted rankLE l' := by
  unfold sortByRank at h
  split at h
  next hlen =>
    injection h with h
    subst h
    rcases l with _ | ⟨a, _ | ⟨b, t⟩⟩
    · exact List.sorted_nil
    · exact List.sorted_singleton a
    · simp at hlen
  next =>
    split at h
    · injection h with h; subst h; exact List.sorted_insertionSort rankLE l
    · cases h

theorem sortByRank_error_of {l : List Candidate} (h2 : 2 ≤ l.length)
    (hnone : ∃ c ∈ l, rankKey c = none) :
    sortByRank l = .error "TypeError: < not supported between NoneType and int" := by
  have hall : l.all (fun c => (rankKey c).isSome) = false := by
    rw [List.all_eq_false]
    rcases hnone with ⟨c, hc, hk⟩
    exact ⟨c, hc, by rw [hk]; simp⟩
  rw [sortByRank, if_neg (by omega), hall]
  simp

theorem roundHalfEven_intCast (n : ℤ) : roundHalfEven (n : ℚ) = n := by
  rw [roundHalfEven, Int.floor_intCast]
  norm_num

theorem pyRound2_eq_intCast_div {x : ℚ} {n : ℤ} (h : x * 100 = (n : ℚ)) :
    pyRound2 x = (n : ℚ) / 100 := by
  rw [pyRound2, h, roundHalfEven_intCast]

theorem roundHalfEven_nonneg {x : ℚ} (h : 0 ≤ x) : 0 ≤ roundHalfEven x := by
  have hf : (0 : ℤ) ≤ ⌊x⌋ := Int.le_floor.mpr (by exact_mod_cast h)
  rw [roundHalfEven]
  split
  · exact hf
  · split
    · omega
    · split <;> omega

theorem roundHalfEven_le {x : ℚ} {B : ℤ} (h : x ≤ B) : roundHalfEven x ≤ B := by
  have hfB : ⌊x⌋ ≤ B := by
    have := Int.floor_le_floor h
    rwa [Int.floor_intCast] at this
  rw [roundHalfEven]
  split
  · exact hfB
  next h1 =>
    have h2 : (⌊x⌋ : ℚ) + 1/2 ≤ x := by
      push_neg at h1
      have := Int.floor_le x
      linarith
    have h3 : (⌊x⌋ : ℚ) < (B : ℚ) := by linarith
    have h4 : ⌊x⌋ < B := by exact_mod_cast h3
    split
    · omega
    · split <;> omega

theorem pyRound2_nonneg {x : ℚ} (h : 0 ≤ x) : 0 ≤ pyRound2 x := by
  rw [pyRound2]
  have h1 : (0 : ℚ) ≤ x * 100 := by linarith
  have h2 := roundHalfEven_nonneg h1
  exact div_nonneg (by exact_mod_cast h2) (by norm_num)

theorem pyRound2_le_100 {x : ℚ} (h : x ≤ 100) : pyRound2 x ≤ 100 := by
  rw [pyRound2]
  have h1 : x * 100 ≤ ((10000 : ℤ) : ℚ) := by push_cast; linarith
  have h2 := roundHalfEven_le h1
  rw [div_le_iff₀ (by norm_num : (0 : ℚ) < 100)]
  calc (roundHalfEven (x * 100) : ℚ) ≤ ((10000 : ℤ) : ℚ) := by exact_mod_cast h2
    _ = 100 * 100 := by norm_num

theorem filter_orderedInsert (a : Candidate) (k : Int) :
    ∀ m : List Candidate,
      (List.orderedInsert rankLE a m).filter (fun c => rankVal c == k)
        = if rankVal a == k then a :: m.filter (fun c => rankVal c == k)
          else m.filter (fun c => rankVal c == k)
  | [] => by
    simp only [List.orderedInsert_nil, List.filter_cons, List.filter_nil]
  | b :: m => by
    by_cases hr : rankLE a b
    · rw [List.orderedInsert, if_pos hr, List.filter_cons]
    · rw [List.orderedInsert, if_neg hr, List.filter_cons,
        filter_orderedInsert a k m]
      have hba : rankVal b < rankVal a := by
        unfold rankLE at hr; omega
      by_cases hak : rankVal a = k
      · have hbk : (rankVal b == k) = false := by
          rw [beq_eq_false_iff_ne]; omega
        simp [hak, hbk, List.filter_cons]
      · have hak' : (rankVal a == k) = false := by
          rw [beq_eq_false_iff_ne]; exact hak
        simp [hak', List.filter_cons]

theorem filter_insertionSort (k : Int) :
    ∀ l : List Candidate,
      (List.insertionSort rankLE l).filter (fun c => rankVal c == k)
        = l.filter (fun c => rankVal c == k)
  | [] => rfl
  | a :: l => by
    rw [show List.insertionSort rankLE (a :: l)
          = List.orderedInsert rankLE a (List.insertionSort rankLE l) from rfl,
      filter_orderedInsert, filter_insertionSort k l, List.filter_cons]

theorem sortByRank_ok_filter {l l' : List Candidate} (h : sortByRank l = .ok l')
    (k : Int) :
    l'.filter (fun c => rankVal c == k) = l.filter (fun c => rankVal c == k) := by
  unfold sortByRank at h
  split at h
  · injection h with h; subst h; rfl
  · split at h
    · injection h with h; subst h; exact filter_insertionSort k l
    · cases h

theorem rerank_with_llm_store
    (llm : NormalizedLog → List Candidate → Except String (List RerankEntry))
    (nl : NormalizedLog) (cs : List Candidate) :
    (rerank_with_llm llm nl cs).store = cs := by
  unfold rerank_with_llm
  cases hllm : llm nl cs with
  | error e => rfl
  | ok rr =>
    dsimp only
    cases hs : sortByRank (mergeLoop cs (buildLookup cs) rr).2 with
    | ok l' => exact mergeLoop_fst cs (buildLookup cs) rr
    | error m => exact mergeLoop_fst cs (buildLookup cs) rr

theorem rerank_with_llm_output_cases
    (llm : NormalizedLog → List Candidate → Except String (List RerankEntry))
    (nl : NormalizedLog) (cs : List Candidate) :
    (rerank_with_llm llm nl cs).output = cs
    ∨ ∃ rr, llm nl cs = .ok rr
        ∧ sortByRank (enhancedResults cs rr) = .ok (rerank_with_llm llm nl cs).output := by
  unfold rerank_with_llm
  cases hllm : llm nl cs with
  | error e => exact Or.inl rfl
  | ok rr =>
    dsimp only
    cases hs : sortByRank (mergeLoop cs (buildLookup cs) rr).2 with
    | ok l' => exact Or.inr ⟨rr, rfl, hs⟩
    | error m => exact Or.inl rfl

theorem matchedCandidate?_mem {cs : List Candidate} {e : RerankEntry} {m : Candidate}
    (h : matchedCandidate? cs e = some m) : m ∈ cs := by
  unfold matchedCandidate? at h
  rcases hd : dictGetIdx? (buildLookup cs) e.jira_id with _ | i <;> rw [hd] at h
  · cases h
  · exact List.get?_mem h

theorem rerank_with_llm_output_score
    (llm : NormalizedLog → List Candidate → Except String (List RerankEntry))
    (nl : NormalizedLog) (cs : List Candidate) :
    ∀ c ∈ (rerank_with_llm llm nl cs).output,
      ∃ m ∈ cs, c.similarity_score = m.similarity_score := by
  intro c hc
  rcases rerank_with_llm_output_cases llm nl cs with h | ⟨rr, _, hs⟩
  · rw [h] at hc; exact ⟨c, hc, rfl⟩
  · have hperm := sortByRank_ok_perm hs
    have hc2 : c ∈ enhancedResults cs rr := hperm.mem_iff.mp hc
    rw [enhancedResults_eq, List.mem_filterMap] at hc2
    rcases hc2 with ⟨e, _, hfe⟩
    rcases hmc : matchedCandidate? cs e with _ | m <;> rw [hmc] at hfe
    · cases hfe
    · injection hfe with hfe
      subst hfe
      exact ⟨m, matchedCandidate?_mem hmc, rfl⟩

theorem stringDataEq {a b : String} (h : a.data = b.data) : a = b := by
  cases a; cases b; cases h; rfl

theorem rerank_with_llm_fallback
    (llm : NormalizedLog → List Candidate → Except String (List RerankEntry))
    (nl : NormalizedLog) (cs : List Candidate)
    (h : (∃ m, llm nl cs = .error m)
      ∨ (∃ rr m, llm nl cs = .ok rr
          ∧ sortByRank (enhancedResults cs rr) = .error m)) :
    rerank_with_llm llm nl cs = ⟨cs, cs⟩ := by
  unfold rerank_with_llm
  rcases h with ⟨m, hm⟩ | ⟨rr, m, hok, herr⟩
  · rw [hm]
  · rw [hok]
    dsimp only
    rw [show (mergeLoop cs (buildLookup cs) rr).2 = enhancedResults cs rr from rfl,
      herr]
    dsimp only
    rw [mergeLoop_fst]

theorem rerank_with_llm_output_of_sort_ok
    {llm : NormalizedLog → List Candidate → Except String (List RerankEntry)}
    {nl : NormalizedLog} {cs : List Candidate} {rr : List RerankEntry}
    {l' : List Candidate}
    (hok : llm nl cs = .ok rr)
    (hs : sortByRank (enhancedResults cs rr) = .ok l') :
    (rerank_with_llm llm nl cs).output = l' := by
  unfold rerank_with_llm
  rw [hok]
  dsimp only
  rw [show (mergeLoop cs (buildLookup cs) rr).2 = enhancedResults cs rr from rfl, hs]

theorem sortByRank_isOk {l : List Candidate}
    (hall : ∀ c ∈ l, (rankKey c).isSome) : ∃ l', sortByRank l = .ok l' := by
  unfold sortByRank
  split
  · exact ⟨l, rfl⟩
  · rw [List.all_eq_true.mpr hall]
    exact ⟨l.insertionSort rankLE, rfl⟩

theorem enhancedResults_rank_present (cs : List Candidate) (rr : List RerankEntry) :
    ∀ c ∈ enhancedResults cs rr, c.rank ≠ none := by
  intro c hc
  rw [enhancedResults_eq, List.mem_filterMap] at hc
  rcases hc with ⟨e, _, hfe⟩
  rcases hmc : matchedCandidate? cs e with _ | m <;> rw [hmc] at hfe
  · cases hfe
  · injection hfe with hfe
    subst hfe
    simp [annotate]

theorem enhancedResults_rankKey_isSome {cs : List Candidate} {rr : List RerankEntry}
    (hranks : ∀ e ∈ rr, e.rank.isSome) :
    ∀ c ∈ enhancedResults cs rr, (rankKey c).isSome := by
  intro c hc
  rw [enhancedResults_eq, List.mem_filterMap] at hc
  rcases hc with ⟨e, he, hfe⟩
  rcases hmc : matchedCandidate? cs e with _ | m <;> rw [hmc] at hfe
  · cases hfe
  · injection hfe with hfe
    subst hfe
    show (rankKey (annotate m e)).isSome
    have : rankKey (annotate m e) = e.rank := rfl
    rw [this]
    exact hranks e he

theorem pySlice_sublist {α : Type} (l : List α) (n : Int) : (pySlice l n).Sublist l := by
  unfold pySlice
  split <;> exact List.take_sublist _ _

theorem search_log_ok_body {env : PipelineEnv} {raw_log : RawLog} {top_n : Int}
    {out : List Candidate} (h : search_log env raw_log top_n = .ok out) :
    search_log_body env raw_log top_n = .ok out := by
  unfold search_log at h
  rcases hb : search_log_body env raw_log top_n with e | v <;> rw [hb] at h
  · cases h
  · injection h with h
    rw [h]

theorem search_log_body_ok_shape {env : PipelineEnv} {raw_log : RawLog} {top_n : Int}
    {out : List Candidate} (h : search_log_body env raw_log top_n = .ok out) :
    ∃ nl emb res,
      env.normalize_log raw_log = .ok nl
      ∧ env.generate_embedding nl = .ok emb
      ∧ env.search_similar_logs emb top_n = .ok res
      ∧ out = pySlice
          (rerank_with_llm env.llm_rerank nl (res.map formatResult)).output top_n := by
  unfold search_log_body at h
  rcases hn : env.normalize_log raw_log with e | nl <;>
    rw [hn] at h <;> dsimp only at h
  · cases h
  · rcases he : env.generate_embedding nl with e | emb <;>
      rw [he] at h <;> dsimp only at h
    · cases h
    · rcases hs : env.search_similar_logs emb top_n with e | res <;>
        rw [hs] at h <;> dsimp only at h
      · cases h
      · injection h with h
        exact ⟨nl, emb, res, rfl, he, hs, h.symm⟩

/-! ### Claim theorems -/

/-- C1: `rerank_with_llm` never throws.  If any internal step of re-ranking
raises — the external generative call / JSON parsing (modelled by the
external `llm` function returning `.error`), or the rank sort raising a
`TypeError`; the lookup build and the merge loop are total and cannot
raise — the function returns the original candidate list, in its original
order, with no re-rank fields added (both the returned list and the caller's
candidate records are exactly the input `cs`). -/
theorem rerank_with_llm_fallback_to_identity
    (llm : NormalizedLog → List Candidate → Except String (List RerankEntry))
    (nl : NormalizedLog) (cs : List Candidate)
    (h : (∃ m, llm nl cs = .error m)
      ∨ (∃ rr m, llm nl cs = .ok rr
          ∧ sortByRank (enhancedResults cs rr) = .error m)) :
    rerank_with_llm llm nl cs = ⟨cs, cs⟩ :=
  rerank_with_llm_fallback llm nl cs h

/-- Witness for C1: a concrete failing generative call falls back to the
identity on a two-candidate list. -/
theorem rerank_with_llm_fallback_to_identity_witness :
    rerank_with_llm
        (fun _ _ => (Except.error "gemini unavailable" : Except String (List RerankEntry)))
        [] [candA, candB]
      = ⟨[candA, candB], [candA, candB]⟩ :=
  rerank_with_llm_fallback_to_identity _ [] [candA, candB]
    (Or.inl ⟨"gemini unavailable", rfl⟩)

/-- C9 counterexample: one candidate, matched by the re-rank response and
annotated with rank 1.  The returned entry carries the re-rank fields, but
the caller's candidate record does not: after the call the store still holds
`candA` with its `rank` key absent, because the merge applied the update to a
`.copy()`, not to the original record. -/
theorem rerank_no_in_place_mutation_counterexample :
    rerank_with_llm (fun _ _ => Except.ok [entryShortId]) [] [candA]
      = ⟨[candA], [annotate candA entryShortId]⟩
    ∧ (annotate candA entryShortId).rank = some (some 1)
    ∧ candA.rank = none :=
  ⟨by decide, by decide, rfl⟩

/-- C9 (amended): the re-rank merge step does NOT mutate the caller's
candidate records: it annotates a copy of each matched candidate, and after
`rerank_with_llm` returns, the candidate records passed in are unchanged. -/
theorem rerank_candidates_unchanged
    (llm : NormalizedLog → List Candidate → Except String (List RerankEntry))
    (nl : NormalizedLog) (cs : List Candidate) :
    (rerank_with_llm llm nl cs).store = cs :=
  rerank_with_llm_store llm nl cs

/-- C2 counterexample: candidates `[candA, candB]`, response entries
`[entryRank1B, entryNoRankA]` (the second has no assigned rank).  The claim
predicts the merged output `[annotate candB entryRank1B, annotate candA
entryNoRankA]`: the unranked result sorting after the ranked one via the
sentinel 999.  Instead, the merge inserts the `rank` key with value `None`
into the copy, so `x.get("rank", 999)` yields `None` rather than 999, the
sort comparison raises `TypeError`, and `rerank_with_llm` returns the
original candidates, unannotated and in vector order. -/
theorem rerank_sentinel_sort_counterexample :
    rerank_with_llm (fun _ _ => Except.ok [entryRank1B, entryNoRankA]) [] [candA, candB]
      = ⟨[candA, candB], [candA, candB]⟩
    ∧ ([candA, candB] : List Candidate)
        ≠ [annotate candB entryRank1B, annotate candA entryNoRankA]
    ∧ sortByRank (enhancedResults [candA, candB] [entryRank1B, entryNoRankA])
        = .error "TypeError: < not supported between NoneType and int" :=
  ⟨by decide, by decide, by decide⟩

/-- C2 (amended): for a successfully parsed re-rank response:
(i) every merged result has its `rank` key present, so the sentinel default
999 of the sort key `x.get("rank", 999)` can never take effect after the
merge; (ii) when every merged result carries an integer rank, the returned
list is sorted ascending by rank, is a permutation of the merged results,
and entries of equal rank keep their merge order (stability, phrased as
filter-invariance for every rank value); (iii) if at least two results were
merged and some merged result has no integer rank (its `rank` key holds
`None`), the sort raises `TypeError` and the function returns the original
candidate list unchanged and unannotated instead. -/
theorem rerank_sort_spec
    (llm : NormalizedLog → List Candidate → Except String (List RerankEntry))
    (nl : NormalizedLog) (cs : List Candidate) (rr : List RerankEntry)
    (hok : llm nl cs = .ok rr) :
    (∀ c ∈ enhancedResults cs rr, c.rank ≠ none)
    ∧ ((∀ c ∈ enhancedResults cs rr, (rankKey c).isSome)
        → List.Sorted rankLE (rerank_with_llm llm nl cs).output
          ∧ (rerank_with_llm llm nl cs).output.Perm (enhancedResults cs rr)
          ∧ ∀ k : Int,
              (rerank_with_llm llm nl cs).output.filter (fun c => rankVal c == k)
                = (enhancedResults cs rr).filter (fun c => rankVal c == k))
    ∧ ((2 ≤ (enhancedResults cs rr).length
          ∧ ∃ c ∈ enhancedResults cs rr, rankKey c = none)
        → rerank_with_llm llm nl cs = ⟨cs, cs⟩) := by
  refine ⟨enhancedResults_rank_present cs rr, ?_, ?_⟩
  · intro hall
    obtain ⟨l', hs⟩ := sortByRank_isOk hall
    rw [rerank_with_llm_output_of_sort_ok hok hs]
    exact ⟨sortByRank_ok_sorted hs, sortByRank_ok_perm hs, sortByRank_ok_filter hs⟩
  · intro ⟨h2, hnone⟩
    exact rerank_with_llm_fallback llm nl cs
      (Or.inr ⟨rr, _, hok, sortByRank_error_of h2 hnone⟩)

/-- Witness for C2: a concrete successful re-rank whose merged entries all
carry integer ranks produces a rank-sorted output. -/
theorem rerank_sort_spec_witness :
    List.Sorted rankLE
      (rerank_with_llm (fun _ _ => Except.ok [entryFullId, entryShortId])
        [] [candA]).output :=
  ((rerank_sort_spec _ [] [candA] [entryFullId, entryShortId] rfl).2.1
    (by decide)).1

/-- C6: lookup-and-merge of the parsed re-rank response (each entry carrying
an integer rank, as the response schema requests).  (i) An entry whose
ticket identifier resolves in the two-key lookup — built from each
candidate's full identifier string and its last path segment — is merged:
the referenced candidate exists and its annotated copy appears in the
output.  (ii) The output is exactly (a permutation of, after rank sorting)
the merged entries in response order, so an entry matching no candidate by
either key form contributes nothing and the result count may shrink.
(iii) Concretely, a candidate with identifier `https://x/OLL-1234` is found
both under the full identifier and under the short id `OLL-1234`. -/
theorem rerank_matching_spec
    (llm : NormalizedLog → List Candidate → Except String (List RerankEntry))
    (nl : NormalizedLog) (cs : List Candidate) (rr : List RerankEntry)
    (hok : llm nl cs = .ok rr)
    (hranks : ∀ e ∈ rr, e.rank.isSome) :
    (∀ e ∈ rr, ∀ i, dictGetIdx? (buildLookup cs) e.jira_id = some i
        → ∃ c, cs.get? i = some c
            ∧ annotate c e ∈ (rerank_with_llm llm nl cs).output)
    ∧ (rerank_with_llm llm nl cs).output.Perm
        (rr.filterMap (fun e => (matchedCandidate? cs e).map (fun c => annotate c e)))
    ∧ dictGetIdx? (buildLookup [candA]) (some "https://x/OLL-1234") = some 0
    ∧ dictGetIdx? (buildLookup [candA]) (some "OLL-1234") = some 0 := by
  obtain ⟨l', hs⟩ := sortByRank_isOk (enhancedResults_rankKey_isSome hranks)
  have hout := rerank_with_llm_output_of_sort_ok hok hs
  have hperm : (rerank_with_llm llm nl cs).output.Perm (enhancedResults cs rr) := by
    rw [hout]; exact sortByRank_ok_perm hs
  refine ⟨?_, by rw [← enhancedResults_eq]; exact hperm, by decide, by decide⟩
  intro e he i hi
  have hlt := dictGetIdx?_buildLookup_lt cs e.jira_id i hi
  refine ⟨cs.get ⟨i, hlt⟩, List.get?_eq_get hlt, ?_⟩
  rw [hperm.mem_iff, enhancedResults_eq, List.mem_filterMap]
  refine ⟨e, he, ?_⟩
  rw [matchedCandidate?, hi]
  dsimp only [Option.bind]
  rw [List.get?_eq_get hlt]
  rfl

/-- Witness for C6: a concrete re-rank response whose single entry references
`candA` by its short id merges the annotated copy of `candA`. -/
theorem rerank_matching_spec_witness :
    (rerank_with_llm (fun _ _ => Except.ok [entryShortId]) [] [candA]).output.Perm
      ([entryShortId].filterMap
        (fun e => (matchedCandidate? [candA] e).map (fun c => annotate c e))) :=
  (rerank_matching_spec _ [] [candA] [entryShortId] rfl (by decide)).2.1

/-- C10: for a successful merge (parsed response, every entry with an integer
rank), the length of the output equals the number of response entries that
resolve to a candidate — one output element per matching entry, not per
distinct candidate.  Concretely, two entries referencing the same candidate
`candA` by its full identifier and by its short id produce two annotated
copies of `candA`, so the output can contain duplicate candidates. -/
theorem rerank_output_length_spec
    (llm : NormalizedLog → List Candidate → Except String (List RerankEntry))
    (nl : NormalizedLog) (cs : List Candidate) (rr : List RerankEntry)
    (hok : llm nl cs = .ok rr)
    (hranks : ∀ e ∈ rr, e.rank.isSome) :
    (rerank_with_llm llm nl cs).output.length
      = rr.countP (fun e => (matchedCandidate? cs e).isSome)
    ∧ (rerank_with_llm (fun _ _ => Except.ok [entryFullId, entryShortId])
        [] [candA]).output
        = [annotate candA entryShortId, annotate candA entryFullId] := by
  refine ⟨?_, by decide⟩
  obtain ⟨l', hs⟩ := sortByRank_isOk (enhancedResults_rankKey_isSome hranks)
  have hout := rerank_with_llm_output_of_sort_ok hok hs
  rw [hout, (sortByRank_ok_perm hs).length_eq, enhancedResults_eq,
    length_filterMap_eq_countP]
  refine List.countP_congr ?_
  intro e _
  cases matchedCandidate? cs e <;> simp

/-- Witness for C10: the duplicate-candidate response has exactly as many
output entries as matching response entries (two, for one candidate). -/
theorem rerank_output_length_spec_witness :
    (rerank_with_llm (fun _ _ => Except.ok [entryFullId, entryShortId])
      [] [candA]).output.length
      = [entryFullId, entryShortId].countP
          (fun e => (matchedCandidate? [candA] e).isSome) :=
  (rerank_output_length_spec _ [] [candA] [entryFullId, entryShortId] rfl
    (by decide)).1

/-- C4: for every raw vector-search result carrying a cosine distance `d`,
the formatted candidate's similarity score equals `round((1 - d) * 100, 2)`;
in particular distance 0.12 yields 88.0. -/
theorem formatResult_similarity_spec (r : RawResult) (d : ℚ)
    (h : r.similarity_score = some d) :
    (formatResult r).similarity_score = pyRound2 ((1 - d) * 100)
    ∧ pyRound2 ((1 - 12/100) * 100) = 88 := by
  constructor
  · show pyRound2 ((1 - (r.similarity_score).getD 1) * 100) = _
    rw [h]
    rfl
  · have hm : ((1 - (12 : ℚ)/100) * 100) * 100 = ((8800 : ℤ) : ℚ) := by norm_num
    rw [pyRound2_eq_intCast_div hm]
    norm_num

/-- Witness for C4 at the concrete row with distance 0.12. -/
theorem formatResult_similarity_spec_witness :
    (formatResult rawDist012).similarity_score = pyRound2 ((1 - 12/100) * 100) :=
  (formatResult_similarity_spec rawDist012 (12/100) rfl).1

/-- C5: truncation of the error summary.  A summary longer than 150 code
points is cut to its first 150 code points followed by the 3-character
ellipsis marker (153 code points in total); a summary of at most 150 code
points is passed through unchanged. -/
theorem formatResult_error_summary_spec (r : RawResult) (s : String)
    (h : r.error_summary = some s) :
    (150 < pyStrLen s
      → (formatResult r).error_summary = pyStrTake s 150 ++ "..."
        ∧ pyStrLen (formatResult r).error_summary = 153)
    ∧ (pyStrLen s ≤ 150 → (formatResult r).error_summary = s) := by
  have hsum : (formatResult r).error_summary
      = pyStrTake s 150 ++ (if 150 < pyStrLen s then "..." else "") := by
    show pyStrTake ((r.error_summary).getD "") 150
        ++ (if 150 < pyStrLen ((r.error_summary).getD "") then "..." else "") = _
    rw [h]
    rfl
  constructor
  · intro hlen
    rw [hsum, if_pos hlen]
    refine ⟨rfl, ?_⟩
    show ((pyStrTake s 150 ++ "..." : String)).data.length = 153
    rw [String.data_append]
    rw [List.length_append]
    show (s.data.take 150).length + 3 = 153
    rw [List.length_take]
    have h150 : (150 : Nat) ≤ s.data.length := le_of_lt hlen
    rw [min_eq_left h150]
  · intro hlen
    rw [hsum, if_neg (by omega)]
    apply stringDataEq
    rw [String.data_append]
    show s.data.take 150 ++ ("" : String).data = s.data
    rw [List.take_of_length_le hlen]
    simp

/-- Witness for C5 at a concrete 200-character summary. -/
theorem formatResult_error_summary_spec_witness :
    (formatResult rawLongSummary).error_summary
        = pyStrTake ⟨List.replicate 200 'a'⟩ 150 ++ "..."
      ∧ pyStrLen (formatResult rawLongSummary).error_summary = 153 :=
  (formatResult_error_summary_spec rawLongSummary ⟨List.replicate 200 'a'⟩ rfl).1
    (by decide)

/-- C7: any exception raised inside the `try:` body of `search_log` — at any
stage — is caught once at the pipeline boundary and surfaced as a single
internal-server-error (status 500) whose detail message contains the original
exception message, with the same shape regardless of which stage failed. -/
theorem search_log_error_wrapping_spec (env : PipelineEnv) (raw_log : RawLog)
    (top_n : Int) (m : String)
    (h : search_log_body env raw_log top_n = .error m) :
    search_log env raw_log top_n = .error ⟨500, "Search failed: " ++ m⟩
    ∧ ∃ pre suf, "Search failed: " ++ m = pre ++ m ++ suf := by
  constructor
  · unfold search_log
    rw [h]
  · exact ⟨"Search failed: ", "", by simp⟩

/-- Witness for C7: a failing normalizer surfaces as a 500 with the wrapped
message. -/
theorem search_log_error_wrapping_spec_witness :
    search_log envNormFail [] 5 = .error ⟨500, "Search failed: " ++ "boom"⟩ :=
  (search_log_error_wrapping_spec envNormFail [] 5 "boom" rfl).1

/-- C8 counterexample: `top_n` is a plain Python `int`, and for a negative
count the claim fails: with three vector rows, a failing re-rank (identity
fallback) and `top_n = -1`, the slice `enhanced_matches[:-1]` drops only the
last entry, so a successful run returns 2 results, and `2 ≤ -1` is false. -/
theorem search_log_top_n_counterexample :
    search_log envThreeRows [] (-1)
      = .ok [formatResult rawRow1, formatResult rawRow2]
    ∧ ¬ ((([formatResult rawRow1, formatResult rawRow2] : List Candidate).length : Int)
          ≤ -1) := by
  constructor
  · rfl
  · decide

/-- C8 (amended): for every non-negative result count `top_n`, a successful
run of `search_log` returns at most `top_n` results, regardless of how many
rows the vector store returns and of what the re-ranker does. -/
theorem search_log_at_most_top_n
    (env : PipelineEnv) (raw_log : RawLog) (top_n : Int) (out : List Candidate)
    (hn : 0 ≤ top_n)
    (hok : search_log env raw_log top_n = .ok out) :
    (out.length : Int) ≤ top_n := by
  obtain ⟨nl, emb, res, _, _, _, hout⟩ :=
    search_log_body_ok_shape (search_log_ok_body hok)
  rw [hout, pySlice, if_pos hn]
  have h1 : (List.take top_n.toNat
      (rerank_with_llm env.llm_rerank nl (res.map formatResult)).output).length
      ≤ top_n.toNat := by
    rw [List.length_take]
    exact min_le_left _ _
  calc ((List.take top_n.toNat
        (rerank_with_llm env.llm_rerank nl (res.map formatResult)).output).length : Int)
      ≤ (top_n.toNat : Int) := by exact_mod_cast h1
    _ = top_n := Int.toNat_of_nonneg hn

/-- Witness for C8 (amended) at `top_n = 5` with three vector rows. -/
theorem search_log_at_most_top_n_witness :
    (([formatResult rawRow1, formatResult rawRow2, formatResult rawRow3] :
        List Candidate).length : Int) ≤ 5 :=
  search_log_at_most_top_n envThreeRows [] 5 _ (by norm_num) rfl

/-- C3 counterexample: the format step does not clamp.  A cosine distance of
2 (a legal cosine distance, for antipodal vectors) makes the pipeline return
a result whose similarity score is -100, outside [0, 100]. -/
theorem search_log_score_out_of_range_counterexample :
    search_log envDistTwo [] 5 = .ok [formatResult rawDistTwo]
    ∧ (formatResult rawDistTwo).similarity_score = -100
    ∧ ¬ (0 ≤ (formatResult rawDistTwo).similarity_score) := by
  have hval : (formatResult rawDistTwo).similarity_score = -100 := by
    show pyRound2 ((1 - (2 : ℚ)) * 100) = -100
    have hm : ((1 - (2 : ℚ)) * 100) * 100 = ((-10000 : ℤ) : ℚ) := by norm_num
    rw [pyRound2_eq_intCast_div hm]
    norm_num
  exact ⟨rfl, hval, by rw [hval]; norm_num⟩

/-- C3 (amended): whenever every distance returned by the vector store lies
in [0, 1], every result record returned by a successful `search_log` run has
a similarity score in [0, 100]. -/
theorem search_log_scores_in_range
    (env : PipelineEnv) (raw_log : RawLog) (top_n : Int) (out : List Candidate)
    (hok : search_log env raw_log top_n = .ok out)
    (hdist : ∀ emb res, env.search_similar_logs emb top_n = .ok res
        → ∀ r ∈ res, 0 ≤ (r.similarity_score).getD 1
            ∧ (r.similarity_score).getD 1 ≤ 1) :
    ∀ c ∈ out, 0 ≤ c.similarity_score ∧ c.similarity_score ≤ 100 := by
  obtain ⟨nl, emb, res, hn, he, hs, hout⟩ :=
    search_log_body_ok_shape (search_log_ok_body hok)
  intro c hc
  rw [hout] at hc
  have hc2 : c ∈ (rerank_with_llm env.llm_rerank nl (res.map formatResult)).output :=
    List.Sublist.mem hc (pySlice_sublist _ _)
  obtain ⟨m, hm, hscore⟩ := rerank_with_llm_output_score _ _ _ c hc2
  obtain ⟨r, hr, hfr⟩ := List.mem_map.mp hm
  have hd := hdist emb res hs r hr
  rw [hscore, ← hfr]
  have heq : (formatResult r).similarity_score
      = pyRound2 ((1 - (r.similarity_score).getD 1) * 100) := rfl
  rw [heq]
  constructor
  · exact pyRound2_nonneg (by linarith [hd.2])
  · exact pyRound2_le_100 (by linarith [hd.1])

/-- Witness for C3 (amended) at a concrete pipeline run with distance 0.12. -/
theorem search_log_scores_in_range_witness :
    0 ≤ (formatResult rawDist012).similarity_score
    ∧ (formatResult rawDist012).similarity_score ≤ 100 :=
  search_log_scores_in_range envDist012 [] 5 [formatResult rawDist012] rfl
    (fun emb res h => by
      injection h with h
      subst h
      intro r hr
      rw [List.mem_singleton] at hr
      subst hr
      have hge : (rawDist012.similarity_score).getD 1 = 12/100 := rfl
      rw [hge]
      constructor <;> norm_num)
    (formatResult rawDist012) (List.mem_singleton.mpr rfl)
